import Mathlib

/-!
Shallow embedding of the `rabbit-wrapper` messaging layer
(`src/rabbit.ts` and `src/rpc.ts`): a resilient channel/queue manager
over an AMQP broker and a correlation-id based RPC engine built on it.

Payload values are opaque to the wrapper (it only serializes and
decodes them through external collaborators), so decoded contents are
modelled as strings.  Broker round-trips (`sendToQueue`, `get`, channel
lifecycle events) are external inputs; they appear as explicit
parameters or event lists fed to the embedded operations.
-/

namespace RabbitWrapper

/-- Decoded payload values; opaque to the wrapper. -/
abbrev Content := String

/-- A structured error event emitted to the external EventEmitter sink
(`this.emitter.emit('error', { service, err, ... })`). We record the
service name and the `err.message` string. -/
structure EmittedError where
  service : String
  message : String
deriving Repr, DecidableEq

/-! ### JavaScript-object-like association tables

`this.callbacks` and `this.queues` are plain JS objects used as string-keyed
maps.  Assignment overwrites the value at an existing key, lookup returns the
value at the key if present, and `delete` removes the key. -/

/-- Lookup in a string-keyed table (JS `obj[k]`, `undefined` mapped to `none`). -/
def tableGet {α : Type} (t : List (String × α)) (k : String) : Option α :=
  match t with
  | [] => none
  | (k', v) :: rest => if k' = k then some v else tableGet rest k

/-- Assignment `obj[k] = v`: overwrite an existing key, else append. -/
def tableSet {α : Type} (t : List (String × α)) (k : String) (v : α) :
    List (String × α) :=
  match t with
  | [] => [(k, v)]
  | (k', v') :: rest =>
      if k' = k then (k, v) :: rest else (k', v') :: tableSet rest k v

/-- Deletion `delete obj[k]`. -/
def tableDelete {α : Type} (t : List (String × α)) (k : String) :
    List (String × α) :=
  match t with
  | [] => []
  | (k', v') :: rest =>
      if k' = k then tableDelete rest k else (k', v') :: tableDelete rest k

/-! ### RPC engine (`src/rpc.ts`)

`RPC.request` stores the promise resolver in `this.callbacks` keyed by a
fresh uuid; the reply-queue consumer installed by `RPC.subscribe` acks every
delivery, looks the correlation id up in the table, and either resolves the
promise and deletes the entry or emits an error event.

Promise resolvers are one-shot: we model each `request` call as allocating a
promise identifier, and the promise store records each promise's status.
A JS promise can only be rejected by an explicit `reject` call; `request`
never creates one, which the model makes visible by including a `rejected`
status that no operation of the engine produces. -/

/-- Identifier of the promise allocated by one `request` call. -/
abbrev PromiseId := Nat

/-- Settlement status of a JS promise created by `RPC.request`. -/
inductive PromiseStatus where
  | pending
  | resolved (value : Content)
  | rejected (err : String)
deriving Repr, DecidableEq

/-- The `RPCConfig`: names of the request and reply queues. -/
structure RPCConfig where
  request : String
  reply : String
deriving Repr, DecidableEq

/-- State of the RPC engine: the service name (used in emitted events),
its configuration, the `callbacks` table mapping correlation ids to the
stored resolver (identified by the promise it settles), and the promise
store with a fresh-id counter. -/
structure RPCState where
  name : String
  config : RPCConfig
  callbacks : List (String × PromiseId)
  promises : List (PromiseId × PromiseStatus)
  nextPromiseId : PromiseId
deriving Repr, DecidableEq

/-- Calling the stored resolver `resolve(v)`: settles the promise if it is
still pending; settling an already-settled JS promise is a no-op. -/
def settlePromise (ps : List (PromiseId × PromiseStatus)) (pid : PromiseId)
    (v : Content) : List (PromiseId × PromiseStatus) :=
  ps.map (fun e =>
    if e.1 = pid then
      match e.2 with
      | .pending => (e.1, .resolved v)
      | st => (e.1, st)
    else e)

/-- Status of promise `pid` in the store. -/
def promiseStatus (ps : List (PromiseId × PromiseStatus)) (pid : PromiseId) :
    Option PromiseStatus :=
  match ps with
  | [] => none
  | (i, st) :: rest => if i = pid then some st else promiseStatus rest pid

/-- A delivery arriving on the reply queue, as seen by the RPC handler:
`Rabbit.subscribe` has already decoded the payload
(`content: safeJSON(msg.content.toString())`) and extracted
`msg.properties.correlationId`. -/
structure ReplyDelivery where
  content : Content
  correlationId : String
deriving Repr, DecidableEq

/-- Observable outcome of one invocation of the reply handler: whether
`msg.ack()` was called, and which error events were emitted. -/
structure HandlerOutcome where
  acked : Bool
  errors : List EmittedError
deriving Repr, DecidableEq

/-- The reply handler installed by `RPC.subscribe` (rpc.ts lines 110-126):

```
msg.ack();
const correlationId = msg.correlationId;
const cb = this.callbacks[correlationId];
if (!cb) {
  const error = new Error(`Callback not present for ${correlationId}`);
  this.error(error, { correlationId });
  return true;
}
cb(msg.content);
delete this.callbacks[correlationId];
```
-/
def rpcHandleReply (s : RPCState) (msg : ReplyDelivery) :
    RPCState × HandlerOutcome :=
  let correlationId := msg.correlationId
  match tableGet s.callbacks correlationId with
  | none =>
      (s, { acked := true,
            errors := [{ service := s.name,
                         message := "Callback not present for " ++ correlationId }] })
  | some pid =>
      ({ s with
          promises := settlePromise s.promises pid msg.content,
          callbacks := tableDelete s.callbacks correlationId },
       { acked := true, errors := [] })

/-- Effects performed by `RPC.request`, in execution order. -/
inductive RPCEffect where
  | registerCallback (correlationId : String) (pid : PromiseId)
  | publish (queue : String) (message : Content) (correlationId : String)
      (replyTo : String)
deriving Repr, DecidableEq

/-- Embedding of `RPC.request` (rpc.ts lines 90-101): allocates a new promise, generates a
correlation id (`uuid()`, passed in as `newId` since it is external
randomness), registers the resolver in `this.callbacks`, then publishes the
message to the request queue with `correlationId` and `replyTo` metadata.
Returns the new state, the promise handed to the caller, and the effect
sequence. -/
def rpcRequest (s : RPCState) (newId : String) (message : Content) :
    RPCState × PromiseId × List RPCEffect :=
  let pid := s.nextPromiseId
  let s' := { s with
      promises := s.promises ++ [(pid, .pending)],
      nextPromiseId := pid + 1,
      callbacks := tableSet s.callbacks newId pid }
  (s', pid,
    [.registerCallback newId pid,
     .publish s.config.request message newId s.config.reply])

/-- Embedding of `RPC.request` together with the outcome of the underlying
`this.rabbit.publish` call.  The code neither awaits nor chains on the
publish result, and `Rabbit.publish` with default `handle = true` swallows a
send failure after emitting one error event, so a failing publish only adds
an error event and changes nothing in the RPC state. -/
def rpcRequestPub (s : RPCState) (newId : String) (message : Content)
    (publishFails : Bool) : RPCState × PromiseId × List EmittedError :=
  let (s', pid, _) := rpcRequest s newId message
  (s', pid,
    if publishFails then
      [{ service := s.name, message := "sendToQueue failed" }]
    else [])

/-- One externally-triggered step of the RPC engine: a caller issues a
request (with the uuid and the publish outcome supplied by the environment)
or a delivery arrives on the reply queue. -/
inductive RPCAction where
  | request (newId : String) (message : Content) (publishFails : Bool)
  | deliver (msg : ReplyDelivery)
deriving Repr, DecidableEq

/-- State transition for one action. -/
def rpcStep (s : RPCState) (a : RPCAction) : RPCState :=
  match a with
  | .request newId message publishFails =>
      (rpcRequestPub s newId message publishFails).1
  | .deliver msg => (rpcHandleReply s msg).1

/-- Run a sequence of actions. -/
def rpcRun (s : RPCState) (acts : List RPCAction) : RPCState :=
  acts.foldl rpcStep s

/-- No promise in the store is rejected. -/
def noRejected (s : RPCState) : Prop :=
  ∀ p ∈ s.promises, ∀ e, p.2 ≠ PromiseStatus.rejected e

instance (s : RPCState) : Decidable (noRejected s) := by
  unfold noRejected
  have : ∀ st : PromiseStatus, Decidable (∀ e, st ≠ PromiseStatus.rejected e) := by
    intro st
    cases st with
    | pending => exact isTrue (fun e h => by cases h)
    | resolved v => exact isTrue (fun e h => by cases h)
    | rejected err => exact isFalse (fun h => h err rfl)
  exact List.decidableBAll _ s.promises

/-! ### Channel lifecycle (`Rabbit.makeChannel`, rabbit.ts lines 129-169)

`makeChannel` wraps `this.client.createChannel(opts)` in a promise and
registers listeners: `close`/`error` emit an error event when the carried
`err` is truthy and call `reject(err)`; `drop` emits a "dropped message"
error event; `connect` logs and calls `resolve(channel)`.  A JS promise
settles exactly once: the first `resolve`/`reject` wins and later calls are
no-ops, which the machine mirrors by only settling from `unsettled`. -/

/-- Lifecycle events the transport emits on a channel.  `close`/`error`
carry the underlying transport error, which JS may leave `undefined`. -/
inductive ChannelEvent where
  | connect
  | close (err : Option String)
  | error (err : Option String)
  | drop (droppedMessage : Content)
deriving Repr, DecidableEq

/-- Settlement state of the promise returned by `makeChannel`. -/
inductive OpenPromise where
  | unsettled
  | resolvedChannel
  | rejectedWith (err : Option String)
deriving Repr, DecidableEq

/-- The `resolve(channel)` call: settles only if unsettled. -/
def resolveOpen (p : OpenPromise) : OpenPromise :=
  match p with
  | .unsettled => .resolvedChannel
  | p => p

/-- The `reject(err)` call: settles only if unsettled. -/
def rejectOpen (p : OpenPromise) (err : Option String) : OpenPromise :=
  match p with
  | .unsettled => .rejectedWith err
  | p => p

/-- Observable state accumulated by the `makeChannel` listeners: the open
promise plus the error and log events emitted so far. -/
structure ChannelMachine where
  promise : OpenPromise
  errorEvents : List EmittedError
  logEvents : List String
deriving Repr, DecidableEq

/-- Error events a `close`/`error` listener emits: one event when the carried
`err` is truthy (`if (err) this.error(err, {channelName})`), none otherwise. -/
def closeErrorEvents (serviceName : String) (err : Option String) :
    List EmittedError :=
  match err with
  | some msg => [{ service := serviceName, message := msg }]
  | none => []

/-- One listener invocation of the `makeChannel` promise executor. -/
def channelEventStep (serviceName channelName : String) (m : ChannelMachine)
    (e : ChannelEvent) : ChannelMachine :=
  match e with
  | .close err =>
      { m with
          errorEvents := m.errorEvents ++ closeErrorEvents serviceName err,
          promise := rejectOpen m.promise err }
  | .error err =>
      { m with
          errorEvents := m.errorEvents ++ closeErrorEvents serviceName err,
          promise := rejectOpen m.promise err }
  | .drop _ =>
      { m with
          errorEvents := m.errorEvents ++
            [{ service := serviceName,
               message := channelName ++ " channel :: dropped message" }] }
  | .connect =>
      { m with
          logEvents := m.logEvents ++
            ["<" ++ channelName ++ "> channel :: opened"],
          promise := resolveOpen m.promise }

/-- Machine state when `makeChannel` has just installed its listeners. -/
def initialChannelMachine : ChannelMachine :=
  { promise := .unsettled, errorEvents := [], logEvents := [] }

/-- Run the listeners over a sequence of transport events. -/
def channelEventsRun (serviceName channelName : String) (m : ChannelMachine)
    (es : List ChannelEvent) : ChannelMachine :=
  es.foldl (channelEventStep serviceName channelName) m

/-! ### Queue registry, publish and send (`rabbit.ts`) -/

/-- Queue assertion options after merging with the defaults
(`{ durable: true, autoDelete: false, ...op }`). -/
structure QueueOptions where
  durable : Bool
  autoDelete : Bool
deriving Repr, DecidableEq

/-- The caller-facing options argument of `createQueue`; a field the caller
omits is `none`. -/
structure AssertQueueArg where
  durable : Option Bool := none
  autoDelete : Option Bool := none
deriving Repr, DecidableEq

/-- The merge `{ durable: true, autoDelete: false, ...op }`: caller-supplied fields
override the defaults. -/
def mergeAssertOptions (op : AssertQueueArg) : QueueOptions :=
  { durable := op.durable.getD true, autoDelete := op.autoDelete.getD false }

/-- The idempotent setup procedure `createQueue` registers on its channel:
`ch.prefetch(1)` followed by `ch.assertQueue(queueName, opts)`. -/
structure ChannelSetup where
  prefetchCount : Nat
  assertedQueue : String
  assertedOptions : QueueOptions
deriving Repr, DecidableEq

/-- A managed channel as created by `makeChannel`: its diagnostic name, the
JSON-serialization flag, and the setup procedure replayed on every
(re)connect (absent for the bare global channel). -/
structure ManagedChannel where
  name : String
  json : Bool
  setup : Option ChannelSetup
deriving Repr, DecidableEq

/-- Registry entry for a declared queue.  `createQueue` first stores `{}`
(`this.queues[queueName] = {}`) and fills in `.channel` once the channel
opens, so the channel reference is optional. -/
structure QueueRecord where
  channel : Option ManagedChannel
deriving Repr, DecidableEq

/-- Embedding of `Rabbit.createQueue` (rabbit.ts lines 204-233): merges the option
defaults, records the queue name in the registry, obtains a channel named
after the queue whose setup sets prefetch to 1 and asserts the queue with
the merged options, stores the channel in the registry entry and returns
it. -/
def createQueue (queues : List (String × QueueRecord)) (queueName : String)
    (op : AssertQueueArg) : List (String × QueueRecord) × ManagedChannel :=
  let opts := mergeAssertOptions op
  let queues1 := tableSet queues queueName { channel := none }
  let channel : ManagedChannel :=
    { name := queueName, json := true,
      setup := some { prefetchCount := 1, assertedQueue := queueName,
                      assertedOptions := opts } }
  (tableSet queues1 queueName { channel := some channel }, channel)

instance {ε α : Type} [DecidableEq ε] [DecidableEq α] :
    DecidableEq (Except ε α) := fun a b =>
  match a, b with
  | .ok x, .ok y =>
      if h : x = y then isTrue (by rw [h]) else isFalse (by simp [h])
  | .error x, .error y =>
      if h : x = y then isTrue (by rw [h]) else isFalse (by simp [h])
  | .ok _, .error _ => isFalse (by simp)
  | .error _, .ok _ => isFalse (by simp)

/-- What the caller of `publish`/`send` observes. `typeError` is the
rejection produced when `this.queues[qid]` (or its `.channel`) is
`undefined` and the property access throws inside the `async` body. -/
inductive PublishOutcome where
  | resolvedOk
  | rawOperation (r : Except String Unit)
  | typeError (qid : String)
deriving Repr, DecidableEq

/-- Embedding of `Rabbit.publish` (rabbit.ts lines 293-306): looks the queue up in the
registry and calls `sendToQueue` on its channel; with `handle = false` the
raw in-flight operation is returned, otherwise a failure is caught and
reported as one error event and the call resolves.  The broker outcome of
`sendToQueue` is the external input `sendResult`.  The registry is returned
unchanged: `publish` never writes to `this.queues`. -/
def publish (serviceName : String) (queues : List (String × QueueRecord))
    (qid : String) (message : Content) (handle : Bool)
    (sendResult : Except String Unit) :
    PublishOutcome × List EmittedError × List (String × QueueRecord) :=
  match tableGet queues qid with
  | none => (.typeError qid, [], queues)
  | some q =>
      match q.channel with
      | none => (.typeError qid, [], queues)
      | some _ =>
          if handle = false then (.rawOperation sendResult, [], queues)
          else
            match sendResult with
            | .ok _ => (.resolvedOk, [], queues)
            | .error e =>
                (.resolvedOk, [{ service := serviceName, message := e }], queues)

/-- Embedding of `Rabbit.send` (rabbit.ts lines 320-334): like `publish` but through the
shared global channel with no registry lookup. -/
def send (serviceName : String) (qname : String) (message : Content)
    (handle : Bool) (sendResult : Except String Unit) :
    PublishOutcome × List EmittedError :=
  if handle = false then (.rawOperation sendResult, [])
  else
    match sendResult with
    | .ok _ => (.resolvedOk, [])
    | .error e => (.resolvedOk, [{ service := serviceName, message := e }])

/-! ### `Rabbit.getMessage` and `Rabbit.init` -/

/-- A raw broker delivery as returned by `channel.get`; the wrapper reads
`message.content.toString()` from it. -/
structure RawDelivery where
  rawContent : String
deriving Repr, DecidableEq

/-- Embedding of `Rabbit.getMessage` (rabbit.ts lines 343-351): calls
`channel.get(qname, { noAck: true })` on the shared global channel
(modelled by `globalGet qname noAck`), throws
`` `No message on ${qname}` `` when the broker returns `false`, and
otherwise resolves with `safeJSON(message.content.toString())` (the
external decoder is the parameter `decode`). -/
def getMessage (globalGet : String → Bool → Option RawDelivery)
    (decode : String → Content) (qname : String) : Except String Content :=
  match globalGet qname true with
  | none => .error ("No message on " ++ qname)
  | some msg => .ok (decode msg.rawContent)

/-- Connection handles are opaque; we only track identity. -/
abbrev ConnectionHandle := Nat

/-- State of a `Rabbit` instance relevant to `init`. -/
structure RabbitState where
  client : Option ConnectionHandle
  channel : Option ManagedChannel
  queues : List (String × QueueRecord)
deriving Repr, DecidableEq

/-- How the promise returned by `init` settles. -/
inductive InitResult where
  | resolvedSelf
  | connectedAnew (conn : ConnectionHandle)
  | failed (err : String)
deriving Repr, DecidableEq

/-- Embedding of `Rabbit.init` (rabbit.ts lines 176-192): if `this.client` is already
set, resolve immediately with `this`; otherwise connect
(`makeConnection`, outcome `connOutcome`), store the connection in
`this.client`, create the global channel (`makeChannel`, outcome
`chanOutcome`) and store it in `this.channel`. -/
def rabbitInit (s : RabbitState) (connOutcome : Except String ConnectionHandle)
    (chanOutcome : Except String ManagedChannel) : RabbitState × InitResult :=
  match s.client with
  | some _ => (s, .resolvedSelf)
  | none =>
      match connOutcome with
      | .error e => (s, .failed e)
      | .ok conn =>
          match chanOutcome with
          | .error e => ({ s with client := some conn }, .failed e)
          | .ok ch =>
              ({ s with client := some conn, channel := some ch },
               .connectedAnew conn)

/-! ## Theorems -/

theorem tableGet_tableSet_self {α : Type} (t : List (String × α)) (k : String)
    (v : α) : tableGet (tableSet t k v) k = some v := by
  induction t with
  | nil => simp [tableSet, tableGet]
  | cons hd tl ih =>
      obtain ⟨k', v'⟩ := hd
      by_cases h : k' = k <;> simp [tableSet, tableGet, h, ih]

theorem tableGet_tableDelete_self {α : Type} (t : List (String × α))
    (k : String) : tableGet (tableDelete t k) k = none := by
  induction t with
  | nil => simp [tableDelete, tableGet]
  | cons hd tl ih =>
      obtain ⟨k', v'⟩ := hd
      by_cases h : k' = k <;> simp [tableDelete, tableGet, h, ih]

theorem tableGet_tableDelete_ne {α : Type} (t : List (String × α))
    (k k' : String) (h : k' ≠ k) :
    tableGet (tableDelete t k) k' = tableGet t k' := by
  induction t with
  | nil => simp [tableDelete]
  | cons hd tl ih =>
      obtain ⟨k₀, v₀⟩ := hd
      by_cases hk : k₀ = k
      · subst hk
        simp [tableDelete, tableGet, ih, Ne.symm h]
      · simp [tableDelete, tableGet, hk, ih]

theorem tableGet_tableSet_ne {α : Type} (t : List (String × α))
    (k k' : String) (v : α) (h : k' ≠ k) :
    tableGet (tableSet t k v) k' = tableGet t k' := by
  induction t with
  | nil => simp [tableSet, tableGet, Ne.symm h]
  | cons hd tl ih =>
      obtain ⟨k₀, v₀⟩ := hd
      by_cases hk : k₀ = k
      · subst hk
        simp [tableSet, tableGet, Ne.symm h]
      · simp [tableSet, tableGet, hk, ih]

theorem tableGet_mem {α : Type} (t : List (String × α)) (k : String) (v : α)
    (h : tableGet t k = some v) : (k, v) ∈ t := by
  induction t with
  | nil => simp [tableGet] at h
  | cons hd tl ih =>
      obtain ⟨k', v'⟩ := hd
      by_cases hk : k' = k
      · subst hk
        simp [tableGet] at h
        simp [h]
      · simp [tableGet, hk] at h
        exact List.mem_cons_of_mem _ (ih h)

theorem settlePromise_cons (i : PromiseId) (st : PromiseStatus)
    (tl : List (PromiseId × PromiseStatus)) (pid : PromiseId) (v : Content) :
    settlePromise ((i, st) :: tl) pid v =
      (if i = pid then
        match st with
        | PromiseStatus.pending => (i, PromiseStatus.resolved v)
        | st => (i, st)
       else (i, st)) :: settlePromise tl pid v := by
  by_cases hi : i = pid <;> simp [settlePromise, hi]

theorem promiseStatus_settlePromise_pending
    (ps : List (PromiseId × PromiseStatus)) (pid : PromiseId) (v : Content)
    (h : promiseStatus ps pid = some PromiseStatus.pending) :
    promiseStatus (settlePromise ps pid v) pid
      = some (PromiseStatus.resolved v) := by
  induction ps with
  | nil => simp [promiseStatus] at h
  | cons hd tl ih =>
      obtain ⟨i, st⟩ := hd
      by_cases hi : i = pid
      · subst hi
        simp only [promiseStatus, if_pos rfl] at h
        injection h with h
        subst h
        rw [settlePromise_cons, if_pos rfl]
        simp [promiseStatus]
      · simp only [promiseStatus, if_neg hi] at h
        rw [settlePromise_cons, if_neg hi]
        simp [promiseStatus, hi]
        exact ih h

theorem promiseStatus_settlePromise_ne
    (ps : List (PromiseId × PromiseStatus)) (pid pid' : PromiseId) (v : Content)
    (h : pid ≠ pid') :
    promiseStatus (settlePromise ps pid' v) pid = promiseStatus ps pid := by
  induction ps with
  | nil => simp [settlePromise, promiseStatus]
  | cons hd tl ih =>
      obtain ⟨i, st⟩ := hd
      by_cases hi : i = pid'
      · subst hi
        rw [settlePromise_cons, if_pos rfl]
        cases st <;> simp [promiseStatus, Ne.symm h, ih]
      · rw [settlePromise_cons, if_neg hi]
        simp [promiseStatus, ih]

theorem promiseStatus_append_fresh
    (ps : List (PromiseId × PromiseStatus)) (pid : PromiseId)
    (st : PromiseStatus) (h : promiseStatus ps pid = none) :
    promiseStatus (ps ++ [(pid, st)]) pid = some st := by
  induction ps with
  | nil => simp [promiseStatus]
  | cons hd tl ih =>
      obtain ⟨i, s0⟩ := hd
      by_cases hi : i = pid
      · simp [promiseStatus, hi] at h
      · simp [promiseStatus, hi] at h ⊢
        exact ih h

/-- **C1** — For every delivery arriving on the RPC reply queue, the handler
acknowledges the message unconditionally (before any correlation-id lookup),
and if a pending callback is registered for the delivery's correlation id,
that callback is invoked exactly once with the decoded content (the promise
it resolves becomes `resolved msg.content`) and the entry is removed, so a
second reply with the same correlation id finds no entry and takes the
error branch. -/
theorem rpc_reply_ack_and_exactly_once
    (s : RPCState) (msg : ReplyDelivery) (pid : PromiseId)
    (hcb : tableGet s.callbacks msg.correlationId = some pid)
    (hpending : promiseStatus s.promises pid = some PromiseStatus.pending) :
    (∀ s₀ msg₀, (rpcHandleReply s₀ msg₀).2.acked = true)
    ∧ promiseStatus (rpcHandleReply s msg).1.promises pid
        = some (PromiseStatus.resolved msg.content)
    ∧ tableGet (rpcHandleReply s msg).1.callbacks msg.correlationId = none
    ∧ rpcHandleReply (rpcHandleReply s msg).1 msg
        = ((rpcHandleReply s msg).1,
           { acked := true,
             errors := [{ service := s.name,
                          message := "Callback not present for "
                            ++ msg.correlationId }] }) := by
  refine ⟨?_, ?_, ?_, ?_⟩
  · intro s₀ msg₀
    cases htg : tableGet s₀.callbacks msg₀.correlationId <;>
      simp [rpcHandleReply, htg]
  · simp only [rpcHandleReply, hcb]
    exact promiseStatus_settlePromise_pending s.promises pid msg.content hpending
  · simp only [rpcHandleReply, hcb]
    exact tableGet_tableDelete_self s.callbacks msg.correlationId
  · have hnone : tableGet (rpcHandleReply s msg).1.callbacks msg.correlationId
        = none := by
      simp only [rpcHandleReply, hcb]
      exact tableGet_tableDelete_self s.callbacks msg.correlationId
    have hname : (rpcHandleReply s msg).1.name = s.name := by
      simp only [rpcHandleReply, hcb]
    conv_lhs => rw [rpcHandleReply]
    rw [hnone, hname]

/-- Closed instance of `rpc_reply_ack_and_exactly_once` on a one-entry
callbacks table. -/
theorem rpc_reply_ack_and_exactly_once_witness :
    promiseStatus (rpcHandleReply
        ⟨"svc", ⟨"rq", "rp"⟩, [("cid", 0)], [(0, PromiseStatus.pending)], 1⟩
        ⟨"hello", "cid"⟩).1.promises 0
      = some (PromiseStatus.resolved "hello")
    ∧ tableGet (rpcHandleReply
        ⟨"svc", ⟨"rq", "rp"⟩, [("cid", 0)], [(0, PromiseStatus.pending)], 1⟩
        ⟨"hello", "cid"⟩).1.callbacks "cid" = none :=
  ⟨(rpc_reply_ack_and_exactly_once
      ⟨"svc", ⟨"rq", "rp"⟩, [("cid", 0)], [(0, PromiseStatus.pending)], 1⟩
      ⟨"hello", "cid"⟩ 0 (by decide) (by decide)).2.1,
   (rpc_reply_ack_and_exactly_once
      ⟨"svc", ⟨"rq", "rp"⟩, [("cid", 0)], [(0, PromiseStatus.pending)], 1⟩
      ⟨"hello", "cid"⟩ 0 (by decide) (by decide)).2.2.1⟩

/-- **C3** — For every reply delivery whose correlation id has no registered
callback, the handler emits exactly one error event with message
`Callback not present for <correlationId>`, still acks the message, invokes
no callback, leaves the state (including the callbacks table) unchanged,
and returns normally. -/
theorem rpc_reply_unmatched_error
    (s : RPCState) (msg : ReplyDelivery)
    (hcb : tableGet s.callbacks msg.correlationId = none) :
    rpcHandleReply s msg =
      (s, { acked := true,
            errors := [{ service := s.name,
                         message := "Callback not present for "
                           ++ msg.correlationId }] }) := by
  simp only [rpcHandleReply, hcb]

/-- Closed instance of `rpc_reply_unmatched_error` on an empty callbacks
table. -/
theorem rpc_reply_unmatched_error_witness :
    rpcHandleReply ⟨"svc", ⟨"rq", "rp"⟩, [], [], 0⟩ ⟨"x", "c9"⟩ =
      (⟨"svc", ⟨"rq", "rp"⟩, [], [], 0⟩,
       { acked := true,
         errors := [{ service := "svc",
                      message := "Callback not present for " ++ "c9" }] }) :=
  rpc_reply_unmatched_error ⟨"svc", ⟨"rq", "rp"⟩, [], [], 0⟩ ⟨"x", "c9"⟩ rfl

/-- **C2** — `RPC.request` registers the resolver under the generated
correlation id before publishing, publishes to the configured request queue
with `correlationId` equal to that id and `replyTo` equal to the configured
reply queue, and the returned promise resolves exactly when a reply carrying
that correlation id is delivered on the reply queue (a reply with any other
correlation id leaves it pending).  The id generated by `uuid()` is the
external input `newId`; `hfreshp` and `hbound` state that the promise
counter is fresh, which holds in every reachable state. -/
theorem rpc_request_correlation
    (s : RPCState) (newId : String) (message : Content)
    (hfreshp : promiseStatus s.promises s.nextPromiseId = none)
    (hbound : ∀ e ∈ s.callbacks, e.2 ≠ s.nextPromiseId) :
    (rpcRequest s newId message).2.2
      = [RPCEffect.registerCallback newId (rpcRequest s newId message).2.1,
         RPCEffect.publish s.config.request message newId s.config.reply]
    ∧ tableGet (rpcRequest s newId message).1.callbacks newId
        = some (rpcRequest s newId message).2.1
    ∧ promiseStatus (rpcRequest s newId message).1.promises
        (rpcRequest s newId message).2.1 = some PromiseStatus.pending
    ∧ (∀ reply : ReplyDelivery, reply.correlationId = newId →
        promiseStatus
          (rpcHandleReply (rpcRequest s newId message).1 reply).1.promises
          (rpcRequest s newId message).2.1
          = some (PromiseStatus.resolved reply.content))
    ∧ (∀ reply : ReplyDelivery, reply.correlationId ≠ newId →
        promiseStatus
          (rpcHandleReply (rpcRequest s newId message).1 reply).1.promises
          (rpcRequest s newId message).2.1 = some PromiseStatus.pending) := by
  have hpend : promiseStatus (rpcRequest s newId message).1.promises
      s.nextPromiseId = some PromiseStatus.pending :=
    promiseStatus_append_fresh s.promises s.nextPromiseId
      PromiseStatus.pending hfreshp
  refine ⟨rfl, tableGet_tableSet_self s.callbacks newId s.nextPromiseId,
    hpend, ?_, ?_⟩
  · intro reply hr
    have hlook : tableGet (rpcRequest s newId message).1.callbacks
        reply.correlationId = some s.nextPromiseId := by
      rw [hr]
      exact tableGet_tableSet_self s.callbacks newId s.nextPromiseId
    simp only [rpcHandleReply, hlook]
    exact promiseStatus_settlePromise_pending _ s.nextPromiseId
      reply.content hpend
  · intro reply hr
    have hlook : tableGet (rpcRequest s newId message).1.callbacks
        reply.correlationId = tableGet s.callbacks reply.correlationId :=
      tableGet_tableSet_ne s.callbacks newId reply.correlationId
        s.nextPromiseId hr
    cases hsc : tableGet s.callbacks reply.correlationId with
    | none =>
        have htg := hlook.trans hsc
        simp only [rpcHandleReply, htg]
        exact hpend
    | some pid' =>
        have hne : s.nextPromiseId ≠ pid' :=
          fun hh => hbound _ (tableGet_mem s.callbacks reply.correlationId
            pid' hsc) hh.symm
        have htg := hlook.trans hsc
        simp only [rpcHandleReply, htg]
        show promiseStatus
          (settlePromise (rpcRequest s newId message).1.promises pid'
            reply.content) s.nextPromiseId = some PromiseStatus.pending
        rw [promiseStatus_settlePromise_ne _ s.nextPromiseId pid'
          reply.content hne]
        exact hpend

/-- Closed instance of `rpc_request_correlation` starting from the freshly
initialized engine. -/
theorem rpc_request_correlation_witness :
    tableGet
        (rpcRequest ⟨"svc", ⟨"rq", "rp"⟩, [], [], 0⟩ "u1" "m").1.callbacks "u1"
      = some (rpcRequest ⟨"svc", ⟨"rq", "rp"⟩, [], [], 0⟩ "u1" "m").2.1
    ∧ promiseStatus
        (rpcHandleReply (rpcRequest ⟨"svc", ⟨"rq", "rp"⟩, [], [], 0⟩ "u1" "m").1
          ⟨"ans", "u1"⟩).1.promises 0
      = some (PromiseStatus.resolved "ans") :=
  ⟨(rpc_request_correlation ⟨"svc", ⟨"rq", "rp"⟩, [], [], 0⟩ "u1" "m" rfl
      (by simp)).2.1,
   (rpc_request_correlation ⟨"svc", ⟨"rq", "rp"⟩, [], [], 0⟩ "u1" "m" rfl
      (by simp)).2.2.2.1 ⟨"ans", "u1"⟩ rfl⟩

theorem noRejected_settlePromise
    (ps : List (PromiseId × PromiseStatus)) (pid : PromiseId) (v : Content)
    (h : ∀ p ∈ ps, ∀ e, p.2 ≠ PromiseStatus.rejected e) :
    ∀ p ∈ settlePromise ps pid v, ∀ e, p.2 ≠ PromiseStatus.rejected e := by
  intro p hp e
  rcases List.mem_map.1 hp with ⟨q, hq, rfl⟩
  by_cases hqp : q.1 = pid
  · cases hq2 : q.2 with
    | pending => simp [hqp, hq2]
    | resolved v' => simp [hqp, hq2]
    | rejected e' =>
        exact absurd hq2 (h q hq e')
  · simpa [hqp] using h q hq e

theorem noRejected_rpcStep (s : RPCState) (a : RPCAction)
    (h : noRejected s) : noRejected (rpcStep s a) := by
  cases a with
  | request newId message publishFails =>
      intro p hp e
      simp only [rpcStep, rpcRequestPub, rpcRequest, List.mem_append,
        List.mem_singleton] at hp
      rcases hp with hp | hp
      · exact h p hp e
      · subst hp
        simp
  | deliver msg =>
      show noRejected (rpcHandleReply s msg).1
      cases htg : tableGet s.callbacks msg.correlationId with
      | none =>
          intro p hp e
          simp only [rpcHandleReply, htg] at hp
          exact h p hp e
      | some pid =>
          intro p hp e
          simp only [rpcHandleReply, htg] at hp
          exact noRejected_settlePromise s.promises pid msg.content h p hp e

theorem noRejected_rpcRun (s : RPCState) (acts : List RPCAction)
    (h : noRejected s) : noRejected (rpcRun s acts) := by
  induction acts generalizing s with
  | nil => exact h
  | cons a rest ih => exact ih (rpcStep s a) (noRejected_rpcStep s a h)

/-- **C9** — The promise returned by `RPC.request` has no rejection path:
no sequence of requests (with arbitrary publish outcomes) and reply
deliveries ever produces a rejected promise; and a failed publish neither
rejects the promise nor removes the freshly registered callbacks entry,
which persists (with its promise still pending) after the failed
publish. -/
theorem rpc_request_no_rejection_path
    (s : RPCState) (acts : List RPCAction) (newId : String) (message : Content)
    (hfreshp : promiseStatus s.promises s.nextPromiseId = none)
    (hnr : noRejected s) :
    noRejected (rpcRun s acts)
    ∧ tableGet (rpcRequestPub s newId message true).1.callbacks newId
        = some s.nextPromiseId
    ∧ promiseStatus (rpcRequestPub s newId message true).1.promises
        s.nextPromiseId = some PromiseStatus.pending :=
  ⟨noRejected_rpcRun s acts hnr,
   tableGet_tableSet_self s.callbacks newId s.nextPromiseId,
   promiseStatus_append_fresh s.promises s.nextPromiseId
     PromiseStatus.pending hfreshp⟩

/-- Closed instance of `rpc_request_no_rejection_path`: a request whose
publish fails, followed by an unmatched reply, leaves the entry registered
and no promise rejected. -/
theorem rpc_request_no_rejection_path_witness :
    noRejected (rpcRun ⟨"svc", ⟨"rq", "rp"⟩, [], [], 0⟩
        [RPCAction.request "u1" "m" true, RPCAction.deliver ⟨"x", "other"⟩])
    ∧ tableGet
        (rpcRequestPub ⟨"svc", ⟨"rq", "rp"⟩, [], [], 0⟩ "u1" "m" true).1.callbacks
        "u1" = some 0
    ∧ promiseStatus
        (rpcRequestPub ⟨"svc", ⟨"rq", "rp"⟩, [], [], 0⟩ "u1" "m" true).1.promises
        0 = some PromiseStatus.pending :=
  rpc_request_no_rejection_path ⟨"svc", ⟨"rq", "rp"⟩, [], [], 0⟩
    [RPCAction.request "u1" "m" true, RPCAction.deliver ⟨"x", "other"⟩]
    "u1" "m" rfl (by decide)

theorem resolveOpen_settled (p : OpenPromise) (h : p ≠ OpenPromise.unsettled) :
    resolveOpen p = p := by
  cases p <;> simp [resolveOpen] at h ⊢

theorem rejectOpen_settled (p : OpenPromise) (err : Option String)
    (h : p ≠ OpenPromise.unsettled) : rejectOpen p err = p := by
  cases p <;> simp [rejectOpen] at h ⊢

theorem channelEventStep_promise_of_settled (sn cn : String)
    (m : ChannelMachine) (h : m.promise ≠ OpenPromise.unsettled)
    (e : ChannelEvent) : (channelEventStep sn cn m e).promise = m.promise := by
  cases e <;>
    simp [channelEventStep, resolveOpen_settled _ h, rejectOpen_settled _ _ h]

theorem channelEventsRun_promise_of_settled (sn cn : String)
    (m : ChannelMachine) (es : List ChannelEvent)
    (h : m.promise ≠ OpenPromise.unsettled) :
    (channelEventsRun sn cn m es).promise = m.promise := by
  induction es generalizing m with
  | nil => rfl
  | cons e rest ih =>
      have h1 : (channelEventStep sn cn m e).promise = m.promise :=
        channelEventStep_promise_of_settled sn cn m h e
      have h2 := ih (channelEventStep sn cn m e) (by rw [h1]; exact h)
      calc (channelEventsRun sn cn m (e :: rest)).promise
          = (channelEventsRun sn cn (channelEventStep sn cn m e) rest).promise := rfl
        _ = (channelEventStep sn cn m e).promise := h2
        _ = m.promise := h1

theorem channelEventsRun_promise_of_drops (sn cn : String)
    (m : ChannelMachine) (es : List ChannelEvent)
    (h : ∀ ev ∈ es, ∃ c, ev = ChannelEvent.drop c) :
    (channelEventsRun sn cn m es).promise = m.promise := by
  induction es generalizing m with
  | nil => rfl
  | cons e rest ih =>
      rcases h e (List.mem_cons_self e rest) with ⟨c, rfl⟩
      have h2 := ih (channelEventStep sn cn m (ChannelEvent.drop c))
        (fun ev hev => h ev (List.mem_cons_of_mem _ hev))
      calc (channelEventsRun sn cn m (ChannelEvent.drop c :: rest)).promise
          = (channelEventsRun sn cn
              (channelEventStep sn cn m (ChannelEvent.drop c)) rest).promise := rfl
        _ = (channelEventStep sn cn m (ChannelEvent.drop c)).promise := h2
        _ = m.promise := rfl

theorem channelEventsRun_append (sn cn : String) (m : ChannelMachine)
    (es fs : List ChannelEvent) :
    channelEventsRun sn cn m (es ++ fs)
      = channelEventsRun sn cn (channelEventsRun sn cn m es) fs :=
  List.foldl_append _ _ es fs

/-- **C4** — For a channel created by `makeChannel`, a `close` or `error`
event arriving before the first `connect` (with only non-settling `drop`
events before it) rejects the returned promise, and the rejection value is
the `err` carried by the transport event; once the promise has resolved,
later `close`/`error` events only append an error event (when the carried
error is truthy) and change neither the settled promise nor the log. -/
theorem makeChannel_open_promise
    (sn cn : String) (pre rest : List ChannelEvent) (err : Option String)
    (hpre : ∀ ev ∈ pre, ∃ c, ev = ChannelEvent.drop c) :
    (channelEventsRun sn cn initialChannelMachine
        (pre ++ ChannelEvent.close err :: rest)).promise
      = OpenPromise.rejectedWith err
    ∧ (channelEventsRun sn cn initialChannelMachine
        (pre ++ ChannelEvent.error err :: rest)).promise
      = OpenPromise.rejectedWith err
    ∧ (∀ m : ChannelMachine, m.promise = OpenPromise.resolvedChannel →
        (channelEventsRun sn cn m rest).promise = OpenPromise.resolvedChannel
        ∧ channelEventStep sn cn m (ChannelEvent.close err)
            = { m with errorEvents := m.errorEvents ++ closeErrorEvents sn err }
        ∧ channelEventStep sn cn m (ChannelEvent.error err)
            = { m with
                  errorEvents := m.errorEvents ++ closeErrorEvents sn err }) := by
  have hmid : (channelEventsRun sn cn initialChannelMachine pre).promise
      = OpenPromise.unsettled :=
    channelEventsRun_promise_of_drops sn cn initialChannelMachine pre hpre
  have hreject : ∀ e : ChannelEvent,
      (∀ m : ChannelMachine, m.promise = OpenPromise.unsettled →
        (channelEventStep sn cn m e).promise = OpenPromise.rejectedWith err) →
      (channelEventsRun sn cn initialChannelMachine
        (pre ++ e :: rest)).promise = OpenPromise.rejectedWith err := by
    intro e hstep
    rw [channelEventsRun_append]
    have h1 : (channelEventStep sn cn
        (channelEventsRun sn cn initialChannelMachine pre) e).promise
        = OpenPromise.rejectedWith err := hstep _ hmid
    calc (channelEventsRun sn cn
            (channelEventsRun sn cn initialChannelMachine pre)
            (e :: rest)).promise
        = (channelEventsRun sn cn (channelEventStep sn cn
            (channelEventsRun sn cn initialChannelMachine pre) e)
            rest).promise := rfl
      _ = OpenPromise.rejectedWith err := by
            rw [channelEventsRun_promise_of_settled _ _ _ _ (by rw [h1]; simp)]
            exact h1
  refine ⟨?_, ?_, ?_⟩
  · exact hreject (ChannelEvent.close err) (fun m hm => by
      simp [channelEventStep, rejectOpen, hm])
  · exact hreject (ChannelEvent.error err) (fun m hm => by
      simp [channelEventStep, rejectOpen, hm])
  · intro m hm
    refine ⟨(channelEventsRun_promise_of_settled sn cn m rest
        (by rw [hm]; simp)).trans hm, ?_, ?_⟩
    · simp [channelEventStep, rejectOpen_settled m.promise err (by rw [hm]; simp)]
    · simp [channelEventStep, rejectOpen_settled m.promise err (by rw [hm]; simp)]

/-- Closed instance of `makeChannel_open_promise`: a dropped message
followed by a `close` carrying a transport error, before any `connect`,
rejects the open promise with that error. -/
theorem makeChannel_open_promise_witness :
    (channelEventsRun "svc" "global" initialChannelMachine
        ([ChannelEvent.drop "d"]
          ++ ChannelEvent.close (some "boom") :: [ChannelEvent.connect])).promise
      = OpenPromise.rejectedWith (some "boom") :=
  (makeChannel_open_promise "svc" "global" [ChannelEvent.drop "d"]
    [ChannelEvent.connect] (some "boom")
    (by intro ev hev; simp at hev; exact ⟨"d", hev⟩)).1

/-- **C5** — For a registered queue, when `sendToQueue` fails, `publish`
(and `send`) with the default `handleErrors = true` emits exactly one error
event and resolves successfully, while `handleErrors = false` returns the
raw in-flight operation so the caller observes the failure directly. -/
theorem publish_send_handle_errors
    (serviceName qid : String) (queues : List (String × QueueRecord))
    (q : QueueRecord) (ch : ManagedChannel) (message : Content) (e : String)
    (hq : tableGet queues qid = some q) (hch : q.channel = some ch) :
    publish serviceName queues qid message true (Except.error e)
      = (PublishOutcome.resolvedOk,
         [{ service := serviceName, message := e }], queues)
    ∧ publish serviceName queues qid message false (Except.error e)
      = (PublishOutcome.rawOperation (Except.error e), [], queues)
    ∧ publish serviceName queues qid message true (Except.ok ())
      = (PublishOutcome.resolvedOk, [], queues)
    ∧ send serviceName qid message true (Except.error e)
      = (PublishOutcome.resolvedOk, [{ service := serviceName, message := e }])
    ∧ send serviceName qid message false (Except.error e)
      = (PublishOutcome.rawOperation (Except.error e), []) := by
  refine ⟨?_, ?_, ?_, ?_, ?_⟩ <;> simp [publish, send, hq, hch]

/-- Closed instance of `publish_send_handle_errors` on a one-queue
registry. -/
theorem publish_send_handle_errors_witness :
    publish "svc" [("q", ⟨some ⟨"q", true, none⟩⟩)] "q" "m" true
        (Except.error "broken pipe")
      = (PublishOutcome.resolvedOk,
         [{ service := "svc", message := "broken pipe" }],
         [("q", ⟨some ⟨"q", true, none⟩⟩)])
    ∧ publish "svc" [("q", ⟨some ⟨"q", true, none⟩⟩)] "q" "m" false
        (Except.error "broken pipe")
      = (PublishOutcome.rawOperation (Except.error "broken pipe"), [],
         [("q", ⟨some ⟨"q", true, none⟩⟩)]) :=
  ⟨(publish_send_handle_errors "svc" "q" [("q", ⟨some ⟨"q", true, none⟩⟩)]
      ⟨some ⟨"q", true, none⟩⟩ ⟨"q", true, none⟩ "m" "broken pipe"
      (by decide) rfl).1,
   (publish_send_handle_errors "svc" "q" [("q", ⟨some ⟨"q", true, none⟩⟩)]
      ⟨some ⟨"q", true, none⟩⟩ ⟨"q", true, none⟩ "m" "broken pipe"
      (by decide) rfl).2.1⟩

/-- **C6** — Calling `publish` with a queue name that was never registered
via `createQueue` is an error even with the default `handleErrors = true`:
the returned promise rejects (`typeError`, the `TypeError` thrown by reading
`.channel` of `undefined`), never resolves successfully, and the registry is
returned unchanged — `publish` neither creates nor registers the queue. -/
theorem publish_unknown_queue_rejects
    (serviceName qname : String) (queues : List (String × QueueRecord))
    (message : Content) (hq : tableGet queues qname = none) :
    (∀ sendResult : Except String Unit,
      publish serviceName queues qname message true sendResult
        = (PublishOutcome.typeError qname, [], queues))
    ∧ PublishOutcome.typeError qname ≠ PublishOutcome.resolvedOk
    ∧ (∀ r : Except String Unit,
        PublishOutcome.typeError qname ≠ PublishOutcome.rawOperation r) := by
  refine ⟨?_, by simp, by simp⟩
  intro sendResult
  simp [publish, hq]

/-- Closed instance of `publish_unknown_queue_rejects` on the empty
registry. -/
theorem publish_unknown_queue_rejects_witness :
    publish "svc" [] "never-created" "m" true (Except.ok ())
      = (PublishOutcome.typeError "never-created", [], []) :=
  (publish_unknown_queue_rejects "svc" "never-created" [] "m" rfl).1
    (Except.ok ())

/-- **C7** — `createQueue` merges `durable = true` and `autoDelete = false`
as defaults with caller-supplied fields overriding them, creates a channel
named after the queue whose setup procedure sets the prefetch count to 1 and
asserts the queue under the given name with exactly the merged options, and
records that channel in the `queues` registry under the queue name,
returning it. -/
theorem createQueue_defaults_prefetch_registry
    (queues : List (String × QueueRecord)) (queueName : String)
    (op : AssertQueueArg) :
    (createQueue queues queueName op).2.name = queueName
    ∧ (createQueue queues queueName op).2.setup
        = some { prefetchCount := 1, assertedQueue := queueName,
                 assertedOptions :=
                   { durable := op.durable.getD true,
                     autoDelete := op.autoDelete.getD false } }
    ∧ mergeAssertOptions {} = { durable := true, autoDelete := false }
    ∧ (∀ b b' : Bool,
        mergeAssertOptions { durable := some b, autoDelete := some b' }
          = { durable := b, autoDelete := b' })
    ∧ tableGet (createQueue queues queueName op).1 queueName
        = some { channel := some (createQueue queues queueName op).2 } := by
  refine ⟨rfl, rfl, rfl, fun b b' => rfl, ?_⟩
  exact tableGet_tableSet_self _ queueName _

/-- **C8** — `getMessage` polls the shared global channel with
`noAck = true`; when the broker's `get` returns nothing it fails with
`No message on <qname>`, and otherwise it resolves with the decoded content
of the single retrieved message. -/
theorem getMessage_poll_semantics
    (globalGet : String → Bool → Option RawDelivery)
    (decode : String → Content) (qname : String) :
    (globalGet qname true = none →
      getMessage globalGet decode qname
        = Except.error ("No message on " ++ qname))
    ∧ (∀ msg : RawDelivery, globalGet qname true = some msg →
        getMessage globalGet decode qname = Except.ok (decode msg.rawContent)) := by
  constructor
  · intro h
    simp [getMessage, h]
  · intro msg h
    simp [getMessage, h]

/-- Closed instance of `getMessage_poll_semantics`, exercising both the
empty-queue failure and the successful decode. -/
theorem getMessage_poll_semantics_witness :
    getMessage (fun _ _ => none) (fun s => s) "q"
      = Except.error ("No message on " ++ "q")
    ∧ getMessage (fun _ _ => some ⟨"payload"⟩) (fun s => s) "q"
      = Except.ok "payload" :=
  ⟨(getMessage_poll_semantics (fun _ _ => none) (fun s => s) "q").1 rfl,
   (getMessage_poll_semantics (fun _ _ => some ⟨"payload"⟩) (fun s => s)
      "q").2 ⟨"payload"⟩ rfl⟩

/-- **C10** — `Rabbit.init` is idempotent after first success: when
`this.client` is already set, `init` resolves immediately with the same
instance and leaves the whole state — in particular the `client` and the
global `channel` fields — unchanged, creating no second connection or
channel, whatever the transport would have answered. -/
theorem init_idempotent_after_success
    (s : RabbitState) (c : ConnectionHandle)
    (connOutcome : Except String ConnectionHandle)
    (chanOutcome : Except String ManagedChannel)
    (hclient : s.client = some c) :
    rabbitInit s connOutcome chanOutcome = (s, InitResult.resolvedSelf) := by
  simp [rabbitInit, hclient]

/-- Closed instance of `init_idempotent_after_success` on a connected
instance. -/
theorem init_idempotent_after_success_witness :
    rabbitInit ⟨some 7, none, []⟩ (Except.error "down")
        (Except.error "no channel")
      = (⟨some 7, none, []⟩, InitResult.resolvedSelf) :=
  init_idempotent_after_success ⟨some 7, none, []⟩ 7 (Except.error "down")
    (Except.error "no channel") rfl

end RabbitWrapper
